import Mathlib

/-!
# Verification of the canoe replicated-node orchestrator (`raft.go`)

A shallow embedding of the orchestrator's state and operations, translated
from `raft.go` of the `canoe` package, together with theorems settling the
specification claims about it.

Conventions of the embedding:

* Go byte slices (`[]byte`, `LogData`) are `List Nat` (one `Nat` per byte).
* Go `uint64` values (node ids, indices) are `Nat`; where 64-bit range
  matters the bound `< 2^64` appears explicitly.
* Go `time.Duration` is `Int` (nanoseconds).
* External collaborators (the etcd raft engine, the user FSM, the rafthttp
  transport, `encoding/json`, the WAL) are modelled by explicit parameters
  or by traces of the calls made to them, so that every property proved is
  a property of the orchestrator code itself.
-/

namespace Canoe

/-- Go `[]byte` / `LogData`. -/
abbrev Bytes := List Nat

/-- `confChangeNodeContext` of raft.go: the peer record carried in a
conf-change's context (`ip`, `raft_port`, `api_port`). -/
structure confChangeNodeContext where
  IP : String
  RaftPort : Int
  APIPort : Int
deriving DecidableEq, Repr

/-- `raftpb.ConfChangeType`: the conf-change kinds this etcd version knows. -/
inductive ConfChangeType
  | ConfChangeAddNode
  | ConfChangeRemoveNode
  | ConfChangeUpdateNode
deriving DecidableEq, Repr

/-- The context bytes of a conf-change, classified by what
`json.Unmarshal(cc.Context, &ctxData)` would do with them: `empty` is
`len(cc.Context) == 0`, `invalid` is non-empty bytes the decoder rejects,
`valid` is non-empty bytes decoding to a `confChangeNodeContext`. -/
inductive CCContext
  | empty
  | invalid (bytes : Bytes)
  | valid (ctx : confChangeNodeContext)
deriving DecidableEq, Repr

/-- `raftpb.ConfChange` as used by `publishEntries` (after `cc.Unmarshal`):
its type, node id, and context bytes. -/
structure ConfChange where
  ccType : ConfChangeType
  NodeID : Nat
  Context : CCContext
deriving DecidableEq, Repr

/-- `raftpb.Entry` restricted to what `publishEntries` inspects: this etcd
version has exactly the entry types `EntryNormal` and `EntryConfChange`;
a conf-change entry carries the conf-change its `Data` unmarshals to. -/
inductive Entry
  | normal (data : Bytes)
  | confChange (cc : ConfChange)
deriving DecidableEq, Repr

/-- A call made to the rafthttp transport while applying committed
entries (`transport.AddPeer` / `transport.RemovePeer`). -/
inductive TransportOp
  | addPeer (id : Nat) (url : String)
  | removePeer (id : Nat)
deriving DecidableEq, Repr

/-- Go map insert `m[k] = v` on an association list: overwrite the binding
of `k` when present, otherwise append it. -/
def mapInsert (m : List (Nat × confChangeNodeContext)) (k : Nat)
    (v : confChangeNodeContext) : List (Nat × confChangeNodeContext) :=
  if m.any (fun p => p.1 == k) then
    m.map (fun p => if p.1 == k then (k, v) else p)
  else m ++ [(k, v)]

/-- Go map delete `delete(m, k)` on an association list. -/
def mapDelete (m : List (Nat × confChangeNodeContext)) (k : Nat) :
    List (Nat × confChangeNodeContext) :=
  m.filter (fun p => p.1 != k)

/-- The orchestrator state read and written by `publishEntries`, with the
calls to external collaborators recorded as traces: `appliedData` is the
sequence of payloads handed to `fsm.Apply`, `observed` the sequence of
entries handed to `rn.observe`, `transportOps` the transport calls, and
`engineConf` the conf-changes handed to `rn.node.ApplyConfChange` (whose
running value also models what the engine returns into `lastConfState`). -/
structure PubState where
  appliedData : List Bytes
  peerMap : List (Nat × confChangeNodeContext)
  transportOps : List TransportOp
  observed : List Entry
  engineConf : List ConfChange
  lastConfState : Option (List ConfChange)
deriving DecidableEq, Repr

/-- The errors `publishEntries` can return: an error from `fsm.Apply`, a
`json.Unmarshal` failure on a conf-change context, or the sentinel
`ErrorRemovedFromCluster`. -/
inductive PubError
  | fsmErr (e : String)
  | jsonErr (bytes : Bytes)
  | ErrorRemovedFromCluster
deriving DecidableEq, Repr

/-- `rn.observe(entry)` at the end of each loop iteration. -/
def observeEntry (s : PubState) (e : Entry) : PubState :=
  { s with observed := s.observed ++ [e] }

/-- The user FSM's `Apply`, modelled as a function of the payloads applied
so far (its state) and the new payload; `some e` is a returned error. -/
abbrev FsmApply := List Bytes → Bytes → Option String

/-- Outcome of one iteration of the `publishEntries` loop body: either the
iteration completes (ending in `rn.observe`) or it returns an error, with
whatever partial state changes the code made before returning. -/
inductive StepResult
  | ok (s : PubState)
  | fail (s : PubState) (e : PubError)
deriving DecidableEq, Repr

/-- One iteration of the `for _, entry := range ents` body of
`publishEntries` (raft.go lines 762–806), for node id `selfId`. -/
def pubStep (fsm : FsmApply) (selfId : Nat) (s : PubState) (entry : Entry) :
    StepResult :=
  match entry with
  | .normal d =>
    if d = [] then
      StepResult.ok (observeEntry s entry)
    else
      match fsm s.appliedData d with
      | some e => StepResult.fail s (PubError.fsmErr e)
      | none =>
        StepResult.ok (observeEntry
          { s with appliedData := s.appliedData ++ [d] } entry)
  | .confChange cc =>
    let s1 : PubState :=
      { s with engineConf := s.engineConf ++ [cc],
               lastConfState := some (s.engineConf ++ [cc]) }
    match cc.ccType with
    | .ConfChangeAddNode =>
      match cc.Context with
      | .empty => StepResult.ok (observeEntry s1 entry)
      | .invalid b => StepResult.fail s1 (PubError.jsonErr b)
      | .valid ctx =>
        let url := "http://" ++ ctx.IP ++ ":" ++ toString ctx.RaftPort
        let s2 : PubState :=
          if cc.NodeID ≠ selfId then
            { s1 with transportOps :=
                s1.transportOps ++ [TransportOp.addPeer cc.NodeID url] }
          else s1
        StepResult.ok (observeEntry
          { s2 with peerMap := mapInsert s2.peerMap cc.NodeID ctx } entry)
    | .ConfChangeRemoveNode =>
      if cc.NodeID = selfId then
        StepResult.fail s1 PubError.ErrorRemovedFromCluster
      else
        StepResult.ok (observeEntry
          { s1 with
              transportOps :=
                s1.transportOps ++ [TransportOp.removePeer cc.NodeID],
              peerMap := mapDelete s1.peerMap cc.NodeID } entry)
    | .ConfChangeUpdateNode =>
      StepResult.ok (observeEntry s1 entry)

/-- `func (rn *Node) publishEntries(ents []raftpb.Entry) error`: fold the
loop body over the committed entries, stopping at the first error; the
returned pair is the final orchestrator state and the returned error
(`none` is Go's `nil`). -/
def publishEntries (fsm : FsmApply) (selfId : Nat) :
    PubState → List Entry → PubState × Option PubError
  | s, [] => (s, none)
  | s, e :: rest =>
    match pubStep fsm selfId s e with
    | .ok s1 => publishEntries fsm selfId s1 rest
    | .fail s1 err => (s1, some err)

/-- The payloads `publishEntries` forwards to `fsm.Apply` on an error-free
run: the data of the `EntryNormal` entries whose data is non-empty, in
list order. -/
def normalPayloads (ents : List Entry) : List Bytes :=
  ents.filterMap (fun e =>
    match e with
    | .normal d => if d = [] then none else some d
    | .confChange _ => none)

/-- How one entry transforms `peerMap` on an error-free run of
`publishEntries`: an `AddNode` whose context decodes inserts the decoded
record under the node id, a `RemoveNode` for a non-self id deletes the
node id, everything else leaves the map unchanged. -/
def peerMapStep (selfId : Nat) (m : List (Nat × confChangeNodeContext))
    (e : Entry) : List (Nat × confChangeNodeContext) :=
  match e with
  | .confChange cc =>
    match cc.ccType with
    | .ConfChangeAddNode =>
      match cc.Context with
      | .valid ctx => mapInsert m cc.NodeID ctx
      | _ => m
    | .ConfChangeRemoveNode =>
      if cc.NodeID = selfId then m else mapDelete m cc.NodeID
    | .ConfChangeUpdateNode => m
  | .normal _ => m

/-- The empty starting state for `publishEntries`. -/
def initPubState : PubState :=
  { appliedData := [], peerMap := [], transportOps := [], observed := [],
    engineConf := [], lastConfState := none }

example :
    (publishEntries (fun _ _ => none) 1 initPubState
      [Entry.normal [7, 8], Entry.normal [],
       Entry.confChange ⟨ConfChangeType.ConfChangeAddNode, 2,
         CCContext.valid ⟨"a", 9, 10⟩⟩]).1.appliedData = [[7, 8]] := by
  decide

example :
    (publishEntries (fun _ _ => none) 1 initPubState
      [Entry.confChange ⟨ConfChangeType.ConfChangeRemoveNode, 1,
        CCContext.empty⟩, Entry.normal [5]]).2 =
      some PubError.ErrorRemovedFromCluster := by
  decide

/-! ## Unfolding and step lemmas for `publishEntries` -/

theorem publishEntries_nil (fsm : FsmApply) (selfId : Nat) (s : PubState) :
    publishEntries fsm selfId s [] = (s, none) := rfl

theorem publishEntries_cons (fsm : FsmApply) (selfId : Nat) (s : PubState)
    (e : Entry) (rest : List Entry) :
    publishEntries fsm selfId s (e :: rest) =
      (match pubStep fsm selfId s e with
       | StepResult.ok s1 => publishEntries fsm selfId s1 rest
       | StepResult.fail s1 err => (s1, some err)) := rfl

theorem publishEntries_cons_ok {fsm : FsmApply} {selfId : Nat}
    {s s1 : PubState} {e : Entry} (rest : List Entry)
    (h : pubStep fsm selfId s e = StepResult.ok s1) :
    publishEntries fsm selfId s (e :: rest) =
      publishEntries fsm selfId s1 rest := by
  rw [publishEntries_cons, h]

theorem publishEntries_cons_fail {fsm : FsmApply} {selfId : Nat}
    {s s1 : PubState} {e : Entry} {err : PubError} (rest : List Entry)
    (h : pubStep fsm selfId s e = StepResult.fail s1 err) :
    publishEntries fsm selfId s (e :: rest) = (s1, some err) := by
  rw [publishEntries_cons, h]

theorem normalPayloads_nil : normalPayloads [] = [] := rfl

theorem normalPayloads_cons (e : Entry) (l : List Entry) :
    normalPayloads (e :: l) = normalPayloads [e] ++ normalPayloads l := by
  cases e with
  | normal d =>
    by_cases hd : d = [] <;> simp [normalPayloads, hd]
  | confChange cc => simp [normalPayloads]

/-- A successful iteration of the `publishEntries` loop body changes the
`fsm.Apply` trace, the observation trace and the peer map exactly as the
per-entry specification functions say. -/
theorem pubStep_ok_spec {fsm : FsmApply} {selfId : Nat} {s : PubState}
    {e : Entry} {s1 : PubState} (h : pubStep fsm selfId s e = StepResult.ok s1) :
    s1.appliedData = s.appliedData ++ normalPayloads [e] ∧
    s1.observed = s.observed ++ [e] ∧
    s1.peerMap = peerMapStep selfId s.peerMap e := by
  cases e with
  | normal d =>
    by_cases hd : d = []
    · simp only [pubStep, hd, if_pos rfl] at h
      injection h with h
      subst h
      simp [observeEntry, normalPayloads, peerMapStep, hd]
    · simp only [pubStep, if_neg hd] at h
      cases hf : fsm s.appliedData d with
      | some e2 => rw [hf] at h; exact absurd h (by simp)
      | none =>
        rw [hf] at h
        injection h with h
        subst h
        simp [observeEntry, normalPayloads, peerMapStep, hd]
  | confChange cc =>
    obtain ⟨ty, nid, ctx⟩ := cc
    cases ty with
    | ConfChangeAddNode =>
      cases ctx with
      | empty =>
        simp only [pubStep] at h
        injection h with h
        subst h
        simp [observeEntry, normalPayloads, peerMapStep]
      | invalid b => exact absurd h (by simp [pubStep])
      | valid ctx =>
        by_cases hid : nid = selfId
        · simp only [pubStep, hid, ne_eq, not_true_eq_false, if_neg,
            ite_false] at h
          injection h with h
          subst h
          simp [observeEntry, normalPayloads, peerMapStep, hid]
        · simp only [pubStep, ne_eq, hid, not_false_eq_true, if_pos,
            ite_true] at h
          injection h with h
          subst h
          simp [observeEntry, normalPayloads, peerMapStep, hid]
    | ConfChangeRemoveNode =>
      by_cases hid : nid = selfId
      · simp only [pubStep, if_pos hid] at h
        exact absurd h (by simp)
      · simp only [pubStep, if_neg hid] at h
        injection h with h
        subst h
        simp [observeEntry, normalPayloads, peerMapStep, hid]
    | ConfChangeUpdateNode =>
      simp only [pubStep] at h
      injection h with h
      subst h
      simp [observeEntry, normalPayloads, peerMapStep]

/-- Master lemma for error-free runs of `publishEntries`: the `fsm.Apply`
trace grows by exactly the non-empty normal payloads in order, the
observation trace grows by exactly the entry list, and the peer map is the
left fold of the per-entry peer-map specification. -/
theorem publishEntries_ok_spec (fsm : FsmApply) (selfId : Nat)
    (ents : List Entry) : ∀ (s : PubState),
    (publishEntries fsm selfId s ents).2 = none →
    (publishEntries fsm selfId s ents).1.appliedData
        = s.appliedData ++ normalPayloads ents ∧
    (publishEntries fsm selfId s ents).1.observed = s.observed ++ ents ∧
    (publishEntries fsm selfId s ents).1.peerMap
        = ents.foldl (peerMapStep selfId) s.peerMap := by
  induction ents with
  | nil =>
    intro s _
    simp [publishEntries_nil, normalPayloads]
  | cons e rest ih =>
    intro s h
    cases hstep : pubStep fsm selfId s e with
    | ok s1 =>
      rw [publishEntries_cons_ok rest hstep] at h ⊢
      obtain ⟨ha, hb, hc⟩ := pubStep_ok_spec hstep
      obtain ⟨ia, ib, ic⟩ := ih s1 h
      refine ⟨?_, ?_, ?_⟩
      · rw [ia, ha, List.append_assoc, ← normalPayloads_cons]
      · rw [ib, hb, List.append_assoc]
        rfl
      · rw [ic, hc]
        rfl
    | fail s1 err =>
      rw [publishEntries_cons_fail rest hstep] at h
      exact absurd h (by simp)

/-- If an iteration of the `publishEntries` loop body returns an
`fsm.Apply` error, the entry was a non-empty normal entry, `fsm.Apply`
rejected its payload, and the state is returned unchanged (in particular
neither applied nor observed). -/
theorem pubStep_fail_fsmErr {fsm : FsmApply} {selfId : Nat} {s : PubState}
    {entry : Entry} {s1 : PubState} {e : String}
    (h : pubStep fsm selfId s entry = StepResult.fail s1 (PubError.fsmErr e)) :
    ∃ d, entry = Entry.normal d ∧ d ≠ [] ∧ s1 = s ∧
      fsm s.appliedData d = some e := by
  cases entry with
  | normal d =>
    by_cases hd : d = []
    · rw [pubStep, if_pos hd] at h
      exact absurd h (by simp)
    · rw [pubStep, if_neg hd] at h
      cases hf : fsm s.appliedData d with
      | some e2 =>
        rw [hf] at h
        injection h with h1 h2
        injection h2 with h2
        exact ⟨d, rfl, hd, h1.symm, by rw [hf, h2]⟩
      | none =>
        rw [hf] at h
        exact absurd h (by simp)
  | confChange cc =>
    obtain ⟨ty, nid, ctx⟩ := cc
    cases ty with
    | ConfChangeAddNode =>
      cases ctx with
      | empty => exact absurd h (by simp [pubStep])
      | invalid b =>
        simp only [pubStep] at h
        injection h with h1 h2
        exact absurd h2 (by simp)
      | valid ctx =>
        by_cases hid : nid = selfId <;>
          simp [pubStep, hid] at h
    | ConfChangeRemoveNode =>
      by_cases hid : nid = selfId
      · rw [pubStep, if_pos hid] at h
        injection h with h1 h2
        exact absurd h2 (by simp)
      · rw [pubStep, if_neg hid] at h
        exact absurd h (by simp)
    | ConfChangeUpdateNode =>
      exact absurd h (by simp [pubStep])

/-- Master lemma for runs of `publishEntries` that end in an `fsm.Apply`
error: the entry list splits as an error-free prefix, then the offending
non-empty normal entry; exactly the prefix's payloads were applied and the
returned state is the state after the prefix (nothing later is applied,
observed, or written to the peer map or transport). -/
theorem publishEntries_fsmErr_spec (fsm : FsmApply) (selfId : Nat)
    (ents : List Entry) : ∀ (s : PubState) (e : String),
    (publishEntries fsm selfId s ents).2 = some (PubError.fsmErr e) →
    ∃ pre d post,
      ents = pre ++ Entry.normal d :: post ∧ d ≠ [] ∧
      (publishEntries fsm selfId s pre).2 = none ∧
      (publishEntries fsm selfId s ents).1
          = (publishEntries fsm selfId s pre).1 ∧
      (publishEntries fsm selfId s ents).1.appliedData
          = s.appliedData ++ normalPayloads pre ∧
      fsm (s.appliedData ++ normalPayloads pre) d = some e := by
  induction ents with
  | nil =>
    intro s e h
    rw [publishEntries_nil] at h
    exact absurd h (by simp)
  | cons en rest ih =>
    intro s e h
    cases hstep : pubStep fsm selfId s en with
    | ok s1 =>
      rw [publishEntries_cons_ok rest hstep] at h
      obtain ⟨pre, d, post, h1, h2, h3, h4, h5, h6⟩ := ih s1 e h
      obtain ⟨ha, _, _⟩ := pubStep_ok_spec hstep
      refine ⟨en :: pre, d, post, by rw [List.cons_append, h1], h2, ?_, ?_, ?_, ?_⟩
      · rw [publishEntries_cons_ok pre hstep]
        exact h3
      · rw [publishEntries_cons_ok rest hstep, publishEntries_cons_ok pre hstep]
        exact h4
      · rw [publishEntries_cons_ok rest hstep, h5, ha, List.append_assoc,
          ← normalPayloads_cons]
      · have hx : s.appliedData ++ normalPayloads (en :: pre)
            = s1.appliedData ++ normalPayloads pre := by
          rw [ha, List.append_assoc, ← normalPayloads_cons]
        rw [hx]
        exact h6
    | fail s1 err =>
      rw [publishEntries_cons_fail rest hstep] at h
      simp only [Option.some.injEq] at h
      subst h
      obtain ⟨d, hen, hd, hs, hf⟩ := pubStep_fail_fsmErr hstep
      refine ⟨[], d, rest, by rw [hen]; rfl, hd, rfl, ?_, ?_, ?_⟩
      · rw [publishEntries_cons_fail rest hstep, publishEntries_nil, hs]
      · rw [publishEntries_cons_fail rest hstep, hs]
        simp [normalPayloads]
      · simpa [normalPayloads] using hf

/-- Composition: when a prefix of the entry list is processed without
error, processing the whole list is processing the suffix from the state
the prefix produced. -/
theorem publishEntries_append (fsm : FsmApply) (selfId : Nat)
    (pre : List Entry) : ∀ (s : PubState) (rest : List Entry),
    (publishEntries fsm selfId s pre).2 = none →
    publishEntries fsm selfId s (pre ++ rest) =
      publishEntries fsm selfId (publishEntries fsm selfId s pre).1 rest := by
  induction pre with
  | nil =>
    intro s rest _
    rw [publishEntries_nil]
    rfl
  | cons e pr ih =>
    intro s rest h
    cases hstep : pubStep fsm selfId s e with
    | ok s1 =>
      rw [publishEntries_cons_ok pr hstep] at h
      rw [List.cons_append, publishEntries_cons_ok (pr ++ rest) hstep,
        publishEntries_cons_ok pr hstep]
      exact ih s1 rest h
    | fail s1 err =>
      rw [publishEntries_cons_fail pr hstep] at h
      exact absurd h (by simp)

/-! ## Claim theorems about `publishEntries` -/

/-- C1 (amended): on a run of `publishEntries` that returns nil, the FSM's
Apply is invoked exactly once, in list order, for each `EntryNormal` whose
data is non-empty, and never for an `EntryNormal` whose data is empty; if
an Apply call returns an error, `publishEntries` returns that error and
exactly the qualifying entries strictly before the failing entry were
applied (no later entry of the list is applied). -/
theorem publishEntries_apply_exactly_once (fsm : FsmApply) (selfId : Nat)
    (s : PubState) (ents : List Entry) :
    ((publishEntries fsm selfId s ents).2 = none →
      (publishEntries fsm selfId s ents).1.appliedData
        = s.appliedData ++ normalPayloads ents) ∧
    (∀ e : String,
      (publishEntries fsm selfId s ents).2 = some (PubError.fsmErr e) →
      ∃ pre d post, ents = pre ++ Entry.normal d :: post ∧ d ≠ [] ∧
        (publishEntries fsm selfId s pre).2 = none ∧
        (publishEntries fsm selfId s ents).1.appliedData
          = s.appliedData ++ normalPayloads pre ∧
        fsm (s.appliedData ++ normalPayloads pre) d = some e) := by
  constructor
  · intro h
    exact (publishEntries_ok_spec fsm selfId ents s h).1
  · intro e h
    obtain ⟨pre, d, post, h1, h2, h3, _, h5, h6⟩ :=
      publishEntries_fsmErr_spec fsm selfId ents s e h
    exact ⟨pre, d, post, h1, h2, h3, h5, h6⟩

theorem publishEntries_apply_exactly_once_witness :
    (publishEntries (fun _ _ => none) 1 initPubState
        [Entry.normal [7], Entry.normal [], Entry.normal [9]]).1.appliedData
      = initPubState.appliedData
          ++ normalPayloads [Entry.normal [7], Entry.normal [], Entry.normal [9]] :=
  (publishEntries_apply_exactly_once (fun _ _ => none) 1 initPubState
    [Entry.normal [7], Entry.normal [], Entry.normal [9]]).1 (by decide)

/-- C1, literal reading refuted at a concrete input: the list below holds a
non-empty `EntryNormal` (data `[5]`), the FSM never errs, yet Apply is
never invoked for it — the preceding RemoveNode conf-change for the node's
own id aborts the loop first, so the apply trace stays empty. -/
theorem publishEntries_apply_exactly_once_counterexample :
    Entry.normal [5] ∈
      [Entry.confChange ⟨ConfChangeType.ConfChangeRemoveNode, 1,
          CCContext.empty⟩, Entry.normal [5]] ∧
    (publishEntries (fun _ _ => none) 1 initPubState
        [Entry.confChange ⟨ConfChangeType.ConfChangeRemoveNode, 1,
            CCContext.empty⟩, Entry.normal [5]]).1.appliedData = [] := by
  decide

/-- C2 (amended): when the entries before a RemoveNode conf-change for the
node's own id are processed without error, `publishEntries` returns the
sentinel `ErrorRemovedFromCluster` at that entry (which is necessarily the
first such entry, since processing an earlier one would already have
returned); the entry's only effect is informing the Raft engine of the
conf-change, and no later entry of the list is applied to the FSM, applied
to the peer map or transport, or fanned out to observers. -/
theorem publishEntries_removeSelf_sentinel (fsm : FsmApply) (selfId : Nat)
    (s : PubState) (pre post : List Entry) (cc : ConfChange)
    (hty : cc.ccType = ConfChangeType.ConfChangeRemoveNode)
    (hid : cc.NodeID = selfId)
    (hok : (publishEntries fsm selfId s pre).2 = none) :
    publishEntries fsm selfId s (pre ++ Entry.confChange cc :: post) =
      ({ (publishEntries fsm selfId s pre).1 with
           engineConf := (publishEntries fsm selfId s pre).1.engineConf ++ [cc],
           lastConfState :=
             some ((publishEntries fsm selfId s pre).1.engineConf ++ [cc]) },
        some PubError.ErrorRemovedFromCluster) := by
  have hstep : pubStep fsm selfId (publishEntries fsm selfId s pre).1
      (Entry.confChange cc) =
      StepResult.fail
        { (publishEntries fsm selfId s pre).1 with
            engineConf := (publishEntries fsm selfId s pre).1.engineConf ++ [cc],
            lastConfState :=
              some ((publishEntries fsm selfId s pre).1.engineConf ++ [cc]) }
        PubError.ErrorRemovedFromCluster := by
    simp [pubStep, hty, hid]
  rw [publishEntries_append fsm selfId pre s (Entry.confChange cc :: post) hok,
    publishEntries_cons_fail post hstep]

theorem publishEntries_removeSelf_sentinel_witness :
    publishEntries (fun _ _ => none) 1 initPubState
        ([Entry.normal [3]] ++
          Entry.confChange ⟨ConfChangeType.ConfChangeRemoveNode, 1,
            CCContext.empty⟩ :: [Entry.normal [9]]) =
      ({ (publishEntries (fun _ _ => none) 1 initPubState [Entry.normal [3]]).1 with
           engineConf :=
             (publishEntries (fun _ _ => none) 1 initPubState
               [Entry.normal [3]]).1.engineConf
               ++ [⟨ConfChangeType.ConfChangeRemoveNode, 1, CCContext.empty⟩],
           lastConfState :=
             some ((publishEntries (fun _ _ => none) 1 initPubState
               [Entry.normal [3]]).1.engineConf
               ++ [⟨ConfChangeType.ConfChangeRemoveNode, 1, CCContext.empty⟩]) },
        some PubError.ErrorRemovedFromCluster) :=
  publishEntries_removeSelf_sentinel (fun _ _ => none) 1 initPubState
    [Entry.normal [3]] [Entry.normal [9]]
    ⟨ConfChangeType.ConfChangeRemoveNode, 1, CCContext.empty⟩
    rfl rfl (by decide)

/-- C2, literal reading refuted at a concrete input: the list below holds a
RemoveNode conf-change for the node's own id, yet `publishEntries` does not
return `ErrorRemovedFromCluster` — a preceding AddNode conf-change whose
context fails to decode makes it return the json error instead. -/
theorem publishEntries_removeSelf_sentinel_counterexample :
    Entry.confChange ⟨ConfChangeType.ConfChangeRemoveNode, 1,
        CCContext.empty⟩ ∈
      [Entry.confChange ⟨ConfChangeType.ConfChangeAddNode, 2,
          CCContext.invalid [0]⟩,
       Entry.confChange ⟨ConfChangeType.ConfChangeRemoveNode, 1,
          CCContext.empty⟩] ∧
    (publishEntries (fun _ _ => none) 1 initPubState
        [Entry.confChange ⟨ConfChangeType.ConfChangeAddNode, 2,
            CCContext.invalid [0]⟩,
         Entry.confChange ⟨ConfChangeType.ConfChangeRemoveNode, 1,
            CCContext.empty⟩]).2 ≠
      some PubError.ErrorRemovedFromCluster := by
  decide

/-- C4: on a run of `publishEntries` that returns nil, the resulting peer
map is the starting peer map updated, in list order, by inserting the
decoded context under the node id for each AddNode conf-change whose
context decodes, and deleting the node id for each RemoveNode conf-change
for a non-self id (within this embedding, `publishEntries` is the only
operation that writes `peerMap` after construction). -/
theorem publishEntries_peerMap_fold (fsm : FsmApply) (selfId : Nat)
    (s : PubState) (ents : List Entry)
    (h : (publishEntries fsm selfId s ents).2 = none) :
    (publishEntries fsm selfId s ents).1.peerMap
      = ents.foldl (peerMapStep selfId) s.peerMap :=
  (publishEntries_ok_spec fsm selfId ents s h).2.2

theorem publishEntries_peerMap_fold_witness :
    (publishEntries (fun _ _ => none) 1 initPubState
        [Entry.confChange ⟨ConfChangeType.ConfChangeAddNode, 2,
            CCContext.valid ⟨"h", 4, 5⟩⟩,
         Entry.confChange ⟨ConfChangeType.ConfChangeAddNode, 3,
            CCContext.valid ⟨"k", 6, 7⟩⟩,
         Entry.confChange ⟨ConfChangeType.ConfChangeRemoveNode, 2,
            CCContext.empty⟩]).1.peerMap
      = [Entry.confChange ⟨ConfChangeType.ConfChangeAddNode, 2,
            CCContext.valid ⟨"h", 4, 5⟩⟩,
         Entry.confChange ⟨ConfChangeType.ConfChangeAddNode, 3,
            CCContext.valid ⟨"k", 6, 7⟩⟩,
         Entry.confChange ⟨ConfChangeType.ConfChangeRemoveNode, 2,
            CCContext.empty⟩].foldl (peerMapStep 1) initPubState.peerMap :=
  publishEntries_peerMap_fold (fun _ _ => none) 1 initPubState
    [Entry.confChange ⟨ConfChangeType.ConfChangeAddNode, 2,
        CCContext.valid ⟨"h", 4, 5⟩⟩,
     Entry.confChange ⟨ConfChangeType.ConfChangeAddNode, 3,
        CCContext.valid ⟨"k", 6, 7⟩⟩,
     Entry.confChange ⟨ConfChangeType.ConfChangeRemoveNode, 2,
        CCContext.empty⟩] (by decide)

/-- C9: on a run of `publishEntries` that returns nil, the observer fan-out
`rn.observe` is invoked exactly once per entry of the list, in order —
including normal entries with empty data (which are not handed to the FSM)
and conf-change entries. -/
theorem publishEntries_observe_every_entry (fsm : FsmApply) (selfId : Nat)
    (s : PubState) (ents : List Entry)
    (h : (publishEntries fsm selfId s ents).2 = none) :
    (publishEntries fsm selfId s ents).1.observed = s.observed ++ ents :=
  (publishEntries_ok_spec fsm selfId ents s h).2.1

theorem publishEntries_observe_every_entry_witness :
    (publishEntries (fun _ _ => none) 1 initPubState
        [Entry.normal [], Entry.normal [2],
         Entry.confChange ⟨ConfChangeType.ConfChangeUpdateNode, 3,
            CCContext.empty⟩]).1.observed
      = initPubState.observed ++
        [Entry.normal [], Entry.normal [2],
         Entry.confChange ⟨ConfChangeType.ConfChangeUpdateNode, 3,
            CCContext.empty⟩] :=
  publishEntries_observe_every_entry (fun _ _ => none) 1 initPubState
    [Entry.normal [], Entry.normal [2],
     Entry.confChange ⟨ConfChangeType.ConfChangeUpdateNode, 3,
        CCContext.empty⟩] (by decide)

/-! ## The snapshot ticker of `scanReady` (C3) -/

/-- `var walDirExtension = "/wal"` of raft.go. -/
def walDirExtension : String := "/wal"

/-- `var snapDirExtension = "/snap"` of raft.go. -/
def snapDirExtension : String := "/snap"

/-- Modelled from the spec: `walDir` is not among the given sources; per
the spec the WAL directory is `<data_dir>/wal`, and it is unconfigured
(the empty string) exactly when no data directory is configured. -/
def walDir (dataDir : String) : String :=
  if dataDir = "" then "" else dataDir ++ walDirExtension

/-- The snapshot ticker `scanReady` runs with: `stopped` is a ticker
created and immediately stopped (it never fires), `active` ticks at the
configured interval. -/
inductive SnapTicker
  | stopped
  | active (interval : Int)
deriving DecidableEq, Repr

/-- Result of the snapshot-ticker selection at the top of `scanReady`
(raft.go lines 559–569): which ticker the variable holds (`none` means it
was never assigned and stays nil), the error `scanReady` returns from this
step, and any error value that was constructed but dropped on the floor. -/
structure SnapTickerInit where
  ticker : Option SnapTicker
  returnedErr : Option String
  discardedErr : Option String
deriving DecidableEq, Repr

/-- The snapshot-ticker selection of `scanReady` (raft.go lines 559–569),
with durations in nanoseconds. In the middle branch the code evaluates
`errors.New("Must not disable snapshotting when datadir unspecified")` and
discards the result — nothing is returned and no ticker is assigned — so
`scanReady` carries on with a nil ticker instead of failing. -/
def scanReadySnapTicker (interval : Int) (dataDir : String) : SnapTickerInit :=
  if interval ≤ 0 ∧ walDir dataDir = "" then
    { ticker := some SnapTicker.stopped, returnedErr := none,
      discardedErr := none }
  else if interval ≤ 0 then
    { ticker := none, returnedErr := none,
      discardedErr :=
        some "Must not disable snapshotting when datadir unspecified" }
  else
    { ticker := some (SnapTicker.active interval), returnedErr := none,
      discardedErr := none }

/-- C3 (code bug, evaluated at the failing input): with the default
snapshot interval of −1 minute and a configured data directory,
`scanReady` constructs the configuration error but discards it — it
returns no error and leaves the snapshot ticker unassigned (nil) — so the
configuration is not rejected, contrary to the claim and to the spec's
stated intent; with interval ≤ 0 and no data directory the ticker is
created and stopped, i.e. snapshots are disabled, as the claim says. -/
theorem scanReady_config_error_swallowed :
    scanReadySnapTicker (-60000000000) "/data" =
      { ticker := none, returnedErr := none,
        discardedErr :=
          some "Must not disable snapshotting when datadir unspecified" } ∧
    scanReadySnapTicker (-60000000000) "" =
      { ticker := some SnapTicker.stopped, returnedErr := none,
        discardedErr := none } := by
  constructor <;> rfl

/-! ## `createSnapAndCompact` (C5) -/

/-- The part of the etcd `raft.MemoryStorage` state that
`createSnapAndCompact` touches: the index of the current snapshot, the
last log index, and the compaction point. -/
structure SnapStorage where
  snapIndex : Nat
  lastIndex : Nat
  compacted : Nat
deriving DecidableEq, Repr

/-- The state read and written by `createSnapAndCompact`, with the calls
to external collaborators recorded: `applied` is
`rn.node.Status().Applied`, `fsmSnapCalls` counts `fsm.Snapshot()`
invocations, and `persisted` records the snapshot indices handed to
`persistSnapshot`. -/
structure SnapCtx where
  applied : Nat
  storage : SnapStorage
  fsmSnapCalls : Nat
  persisted : List Nat
deriving DecidableEq, Repr

/-- `func (rn *Node) createSnapAndCompact(force bool) error` (raft.go
lines 695–737). `raftStorage.Snapshot()` on a `MemoryStorage` never
returns an error, so the early error return cannot fire. `fsmSnap` is
what `rn.fsm.Snapshot()` returns. `CreateSnapshot` and `Compact` are the
etcd `MemoryStorage` operations; their failure cases (snapshot out of
date, index beyond the log, index already compacted) are modelled as the
errors/panics they raise. -/
def createSnapAndCompact (fsmSnap : Except String Bytes) (c : SnapCtx)
    (force : Bool) : SnapCtx × Option String :=
  let index := c.applied
  let lastSnapIndex := c.storage.snapIndex
  if index ≤ lastSnapIndex ∧ force = false then (c, none)
  else
    let c1 := { c with fsmSnapCalls := c.fsmSnapCalls + 1 }
    match fsmSnap with
    | Except.error e => (c1, some e)
    | Except.ok _ =>
      if index ≤ c1.storage.snapIndex then
        (c1, some "requested index is older than the existing snapshot")
      else if c1.storage.lastIndex < index then
        (c1, some "snapshot index is out of bound")
      else
        let c2 := { c1 with storage := { c1.storage with snapIndex := index } }
        if index ≤ c2.storage.compacted then
          (c2, some "requested index is unavailable due to compaction")
        else if c2.storage.lastIndex < index then
          (c2, some "compact index is out of bound")
        else
          let c3 := { c2 with storage := { c2.storage with compacted := index } }
          ({ c3 with persisted := c3.persisted ++ [index] }, none)

/-- C5: with `force = false` and the engine's applied index at most the
index of the stored snapshot, `createSnapAndCompact` returns nil and
changes nothing: the state comes back unchanged, so `fsm.Snapshot` is not
invoked, no snapshot is created or persisted, and the log is not
compacted. -/
theorem createSnapAndCompact_noop (fsmSnap : Except String Bytes)
    (c : SnapCtx) (h : c.applied ≤ c.storage.snapIndex) :
    createSnapAndCompact fsmSnap c false = (c, none) := by
  simp [createSnapAndCompact, h]

theorem createSnapAndCompact_noop_witness :
    createSnapAndCompact (Except.ok [1]) ⟨5, ⟨7, 10, 3⟩, 0, []⟩ false
      = (⟨5, ⟨7, 10, 3⟩, 0, []⟩, none) :=
  createSnapAndCompact_noop (Except.ok [1]) ⟨5, ⟨7, 10, 3⟩, 0, []⟩
    (by decide)

/-! ## Synchronous conf-change proposals (C6) -/

/-- Outcome of the select over the conf-change observer channel and the
10-second timer: the matching commit was observed in time, or the timer
fired first. -/
inductive ObsOutcome
  | observed
  | timedOut
deriving DecidableEq, Repr

/-- What a conf-change proposal call returns: nil, the timeout error
`"Timed out waiting for config change"`, or the error from
`rn.node.ProposeConfChange`. -/
inductive ConfChangeResult
  | ok
  | timeout
  | proposeFailed (e : String)
deriving DecidableEq, Repr

/-- `func (rn *Node) proposePeerAddition(addReq, async)` (raft.go lines
438–489): one `ProposeConfChange` (whose returned error is `proposeRes`)
followed, in the synchronous case, by one select on the observer channel
against the 10-second timer; the timeout branch returns the timeout
error. -/
def proposePeerAddition (proposeRes : Option String) (outcome : ObsOutcome)
    (async : Bool) : ConfChangeResult :=
  match proposeRes with
  | some e => ConfChangeResult.proposeFailed e
  | none =>
    if async then ConfChangeResult.ok
    else
      match outcome with
      | ObsOutcome.observed => ConfChangeResult.ok
      | ObsOutcome.timedOut => ConfChangeResult.timeout

/-- `func (rn *Node) proposePeerDeletion(delReq, async)` (raft.go lines
491–542), driven by the events of its successive attempts: each attempt is
one `ProposeConfChange` result plus one select outcome, and the timeout
branch recurses into the next attempt with the same request. `none` means
every modelled attempt timed out and the call is still retrying. -/
def proposePeerDeletion (attempts : List (Option String × ObsOutcome))
    (async : Bool) : Option ConfChangeResult :=
  match attempts with
  | [] => none
  | (pr, oc) :: rest =>
    match pr with
    | some e => some (ConfChangeResult.proposeFailed e)
    | none =>
      if async then some ConfChangeResult.ok
      else
        match oc with
        | ObsOutcome.observed => some ConfChangeResult.ok
        | ObsOutcome.timedOut => proposePeerDeletion rest async

/-- C6: synchronously, `proposePeerAddition` returns the timeout error when
no matching commit is observed within the deadline, while
`proposePeerDeletion` never returns a timeout: on a timeout it retries the
same deletion (recursing into the next attempt), and whenever it does
return, it returns success or an error from `ProposeConfChange` itself. -/
theorem propose_timeout_behavior :
    proposePeerAddition none ObsOutcome.timedOut false
        = ConfChangeResult.timeout ∧
    (∀ rest, proposePeerDeletion ((none, ObsOutcome.timedOut) :: rest) false
        = proposePeerDeletion rest false) ∧
    (∀ attempts r, proposePeerDeletion attempts false = some r →
        r = ConfChangeResult.ok ∨ ∃ e, r = ConfChangeResult.proposeFailed e) := by
  refine ⟨rfl, fun rest => rfl, ?_⟩
  intro attempts
  induction attempts with
  | nil =>
    intro r h
    exact absurd h (by simp [proposePeerDeletion])
  | cons a rest ih =>
    intro r h
    obtain ⟨pr, oc⟩ := a
    cases pr with
    | some e =>
      simp only [proposePeerDeletion, Option.some.injEq] at h
      exact Or.inr ⟨e, h.symm⟩
    | none =>
      cases oc with
      | observed =>
        simp [proposePeerDeletion] at h
        exact Or.inl h.symm
      | timedOut =>
        exact ih r (by simpa [proposePeerDeletion] using h)

theorem propose_timeout_behavior_witness :
    ConfChangeResult.proposeFailed "no leader" = ConfChangeResult.ok ∨
      ∃ e, ConfChangeResult.proposeFailed "no leader"
        = ConfChangeResult.proposeFailed e :=
  propose_timeout_behavior.2.2
    [(none, ObsOutcome.timedOut), (some "no leader", ObsOutcome.timedOut)]
    (ConfChangeResult.proposeFailed "no leader") rfl

/-! ## Snapshot metadata serialisation (C7)

The `peers` keys on the wire are the decimal strings
`strconv.FormatUint(key, 10)`; a decimal string is modelled as its list of
digit values, most significant first. The string-keyed map handed to and
received from `encoding/json` is modelled as the key/value list itself:
the external JSON encoder is out of scope per the spec, and `canoe`'s own
contribution is exactly the re-keying. -/

/-- `strconv.FormatUint(k, 10)`: the decimal digits of `k`, most
significant first; zero renders as the single digit 0. -/
def formatUint10 (k : Nat) : List Nat :=
  if k = 0 then [0] else (Nat.digits 10 k).reverse

/-- `strconv.ParseUint(s, 10, 64)`: fails on the empty string, on any
non-digit character, and on values that do not fit in 64 bits; otherwise
the value of the decimal digits, most significant first. -/
def parseUint10 (l : List Nat) : Option Nat :=
  if l = [] then none
  else if ∀ d ∈ l, d < 10 then
    if Nat.ofDigits 10 l.reverse < 2 ^ 64 then some (Nat.ofDigits 10 l.reverse)
    else none
  else none

/-- `snapshotMetadata.MarshalJSON` (raft.go lines 658–670): re-key the
peer map with the decimal renderings of the 64-bit node ids. -/
def snapshotMetadataMarshal (peers : List (Nat × confChangeNodeContext)) :
    List (List Nat × confChangeNodeContext) :=
  peers.map (fun p => (formatUint10 p.1, p.2))

/-- `snapshotMetadata.UnmarshalJSON` (raft.go lines 672–692): parse each
key with `strconv.ParseUint(key, 10, 64)`, failing as soon as a key does
not parse, and rebuild the id-keyed peer map. -/
def snapshotMetadataUnmarshal :
    List (List Nat × confChangeNodeContext) →
      Option (List (Nat × confChangeNodeContext))
  | [] => some []
  | p :: rest =>
    match parseUint10 p.1 with
    | none => none
    | some k =>
      match snapshotMetadataUnmarshal rest with
      | none => none
      | some m => some ((k, p.2) :: m)

/-- Parsing inverts rendering for every id that fits in 64 bits. -/
theorem parseUint10_formatUint10 (k : Nat) (h : k < 2 ^ 64) :
    parseUint10 (formatUint10 k) = some k := by
  by_cases hk : k = 0
  · subst hk
    decide
  · rw [formatUint10, if_neg hk, parseUint10]
    have hne : (Nat.digits 10 k).reverse ≠ [] := by
      simp [Nat.digits_ne_nil_iff_ne_zero, hk]
    rw [if_neg hne]
    have hd : ∀ d ∈ (Nat.digits 10 k).reverse, d < 10 := by
      intro d hdm
      rw [List.mem_reverse] at hdm
      exact Nat.digits_lt_base (by norm_num) hdm
    rw [if_pos hd, List.reverse_reverse, Nat.ofDigits_digits, if_pos h]

/-- C7: for a peer map keyed by 64-bit node ids, `MarshalJSON` emits the
map re-keyed by the decimal renderings of the ids (that is what
`snapshotMetadataMarshal` produces by construction), and `UnmarshalJSON`
of that output yields exactly the original map. -/
theorem snapshotMetadata_roundTrip
    (peers : List (Nat × confChangeNodeContext))
    (h : ∀ p ∈ peers, p.1 < 2 ^ 64) :
    snapshotMetadataUnmarshal (snapshotMetadataMarshal peers) = some peers := by
  induction peers with
  | nil => rfl
  | cons p rest ih =>
    obtain ⟨k, v⟩ := p
    have hk : k < 2 ^ 64 := h (k, v) (by simp)
    have hrest := ih (fun q hq => h q (List.mem_cons_of_mem _ hq))
    simp only [snapshotMetadataMarshal, List.map_cons] at hrest ⊢
    rw [snapshotMetadataUnmarshal, parseUint10_formatUint10 k hk, hrest]

theorem snapshotMetadata_roundTrip_witness :
    snapshotMetadataUnmarshal (snapshotMetadataMarshal
        [(9223372036854775813, ⟨"10.0.0.1", 7001, 8001⟩), (5, ⟨"h", 1, 2⟩)])
      = some [(9223372036854775813, ⟨"10.0.0.1", 7001, 8001⟩),
          (5, ⟨"h", 1, 2⟩)] :=
  snapshotMetadata_roundTrip
    [(9223372036854775813, ⟨"10.0.0.1", 7001, 8001⟩), (5, ⟨"h", 1, 2⟩)]
    (by decide)

/-! ## Node construction (C8) and `Start` (C10) -/

/-- `InitializationBackoffArgs` of raft.go; durations in nanoseconds,
float64 factors as rationals. -/
structure InitializationBackoffArgs where
  InitialInterval : Int
  Multiplier : ℚ
  MaxInterval : Int
  MaxElapsedTime : Int
  RandomizationFactor : ℚ
deriving DecidableEq, Repr

/-- `var DefaultInitializationBackoffArgs` of raft.go: 500 ms initial,
×2, ±50 %, 5 s max interval, 2 min max elapsed. -/
def DefaultInitializationBackoffArgs : InitializationBackoffArgs :=
  { InitialInterval := 500000000, RandomizationFactor := 1 / 2,
    Multiplier := 2, MaxInterval := 5000000000,
    MaxElapsedTime := 120000000000 }

/-- `SnapshotConfig` of raft.go; interval in nanoseconds. -/
structure SnapshotConfig where
  Interval : Int
  MinCommittedLogs : Nat
deriving DecidableEq, Repr

/-- `var DefaultSnapshotConfig` of raft.go: interval −1 minute. -/
def DefaultSnapshotConfig : SnapshotConfig :=
  { Interval := -60000000000, MinCommittedLogs := 0 }

/-- The fields of `raft.Config` that `nonInitNode` fills in (the storage
and logger handles are external). -/
structure RaftConfig where
  ID : Nat
  ElectionTick : Nat
  HeartbeatTick : Nat
  MaxSizePerMsg : Nat
  MaxInflightMsgs : Nat
  CheckQuorum : Bool
deriving DecidableEq, Repr

/-- `NodeConfig` of raft.go (the FSM and logger are external handles and
carry no data relevant here). -/
structure NodeConfig where
  ID : Nat
  ClusterID : Nat
  RaftPort : Int
  APIPort : Int
  BootstrapPeers : List String
  BootstrapNode : Bool
  DataDir : String
  InitBackoff : Option InitializationBackoffArgs
  SnapConf : Option SnapshotConfig
deriving DecidableEq, Repr

/-- How the Raft engine field `rn.node` was set up by `Start`. -/
inductive RaftEngine
  | notStarted
  | restarted
  | started (peers : Option (List Nat))
deriving DecidableEq, Repr

/-- The orchestrator `Node` struct: its configuration and lifecycle
state, plus effect flags standing in for the runtime handles `Start`
touches (`stopcFresh` for `rn.stopc = make(chan struct)`,
`transportAttached`/`transportStarted` for the rafthttp transport,
`raftEngine` for `rn.node`, `ticks` for `rn.node.Tick()` calls). The
channels, observers, WAL, snapshotter, FSM and logger handles carry no
further data relevant to the claims. -/
structure Node where
  id : Nat
  cid : Nat
  bootstrapPeers : List String
  bootstrapNode : Bool
  raftPort : Int
  apiPort : Int
  raftConfig : RaftConfig
  started : Bool
  initialized : Bool
  running : Bool
  peerMap : List (Nat × confChangeNodeContext)
  initBackoffArgs : InitializationBackoffArgs
  snapshotConfig : SnapshotConfig
  dataDir : String
  lastConfState : Option (List ConfChange)
  stopcFresh : Bool
  transportAttached : Bool
  transportStarted : Bool
  raftEngine : RaftEngine
  ticks : Nat
deriving DecidableEq, Repr

/-- `func nonInitNode(args *NodeConfig) (*Node, error)` (raft.go lines
359–417). `Uint64UUID` is defined outside the given sources; modelled
from the spec ("id 0 → auto-generate" a random 64-bit id) as the explicit
argument `uuid`. The function cannot return an error. -/
def nonInitNode (uuid : Nat) (args : NodeConfig) : Node :=
  let peers := if args.BootstrapNode then [] else args.BootstrapPeers
  let ib := args.InitBackoff.getD DefaultInitializationBackoffArgs
  let sc := args.SnapConf.getD DefaultSnapshotConfig
  let id := if args.ID = 0 then uuid else args.ID
  let cid := if args.ClusterID = 0 then 0x100 else args.ClusterID
  { id := id, cid := cid, bootstrapPeers := peers,
    bootstrapNode := args.BootstrapNode, raftPort := args.RaftPort,
    apiPort := args.APIPort,
    raftConfig :=
      { ID := id, ElectionTick := 10, HeartbeatTick := 1,
        MaxSizePerMsg := 1024 * 1024, MaxInflightMsgs := 256,
        CheckQuorum := true },
    started := false, initialized := false, running := false,
    peerMap := [], initBackoffArgs := ib, snapshotConfig := sc,
    dataDir := args.DataDir, lastConfState := none, stopcFresh := false,
    transportAttached := false, transportStarted := false,
    raftEngine := RaftEngine.notStarted, ticks := 0 }

/-- `func NewNode(args *NodeConfig) (*Node, error)` (raft.go lines
165–172): construct via `nonInitNode`, propagating its error. -/
def NewNode (uuid : Nat) (args : NodeConfig) : Except String Node :=
  Except.ok (nonInitNode uuid args)

/-- C8: the node `NewNode` constructs carries the supplied id, or the
freshly generated (non-zero) UUID when the supplied id is 0; the supplied
cluster id, or 0x100 when it is 0; and an empty bootstrap-peer list
whenever `BootstrapNode` is set, regardless of the supplied peers. That
the generator yields a non-zero id is the spec's reading of `Uint64UUID`
(hypothesis `h`). -/
theorem NewNode_defaults (uuid : Nat) (args : NodeConfig) (h : uuid ≠ 0) :
    ∀ n, NewNode uuid args = Except.ok n →
      (args.ID = 0 → n.id = uuid ∧ n.id ≠ 0) ∧
      (args.ID ≠ 0 → n.id = args.ID) ∧
      (args.ClusterID = 0 → n.cid = 0x100) ∧
      (args.ClusterID ≠ 0 → n.cid = args.ClusterID) ∧
      (args.BootstrapNode = true → n.bootstrapPeers = []) := by
  intro n hn
  injection hn with hn
  subst hn
  refine ⟨?_, ?_, ?_, ?_, ?_⟩ <;> intro hx <;>
    simp [nonInitNode, hx, h]

theorem NewNode_defaults_witness :
    (0 = 0 → (nonInitNode 42 ⟨0, 0, 7001, 8001, ["peer:8001"], true, "",
        none, none⟩).id = 42 ∧
      (nonInitNode 42 ⟨0, 0, 7001, 8001, ["peer:8001"], true, "",
        none, none⟩).id ≠ 0) ∧
    ((0 : Nat) ≠ 0 → (nonInitNode 42 ⟨0, 0, 7001, 8001, ["peer:8001"], true,
        "", none, none⟩).id = 0) ∧
    (0 = 0 → (nonInitNode 42 ⟨0, 0, 7001, 8001, ["peer:8001"], true, "",
        none, none⟩).cid = 0x100) ∧
    ((0 : Nat) ≠ 0 → (nonInitNode 42 ⟨0, 0, 7001, 8001, ["peer:8001"], true,
        "", none, none⟩).cid = 0) ∧
    (true = true → (nonInitNode 42 ⟨0, 0, 7001, 8001, ["peer:8001"], true,
        "", none, none⟩).bootstrapPeers = []) :=
  NewNode_defaults 42 ⟨0, 0, 7001, 8001, ["peer:8001"], true, "", none, none⟩
    (by decide) (nonInitNode 42 ⟨0, 0, 7001, 8001, ["peer:8001"], true, "",
      none, none⟩) rfl

/-- The results of the external calls `Start` makes, in order: whether
`wal.Exist(walDir)` holds, and the errors (none = nil) returned by
`initPersistentStorage`, `restoreRaft`, `transport.Start`,
`selfRejoinCluster` and `addSelfToCluster`. -/
structure StartEnv where
  walExists : Bool
  initPersistentStorageErr : Option String
  restoreRaftErr : Option String
  transportStartErr : Option String
  selfRejoinErr : Option String
  addSelfErr : Option String
deriving DecidableEq, Repr

/-- `func (rn *Node) Start() error` (raft.go lines 186–261). The first
two lines only compute `walEnabled` and `rejoinCluster` locally; the
early return on `rn.started` fires before any field is written. The
spawned goroutines (`scanReady`, `serveHTTP`, `serveRaft`) are outside
this sequential model. -/
def Start (env : StartEnv) (n0 : Node) : Node × Option String :=
  let walEnabled := walDir n0.dataDir ≠ ""
  let rejoinCluster := env.walExists = true ∧ walDir n0.dataDir ≠ ""
  if n0.started = true then (n0, none)
  else
    let n1 := { n0 with stopcFresh := true }
    match if walEnabled then env.initPersistentStorageErr else none with
    | some e => (n1, some e)
    | none =>
      let afterEngine : Node × Option String :=
        if rejoinCluster then
          match env.restoreRaftErr with
          | some e => (n1, some e)
          | none => ({ n1 with raftEngine := RaftEngine.restarted }, none)
        else
          let n2 := { n1 with transportAttached := true }
          match env.transportStartErr with
          | some e => (n2, some e)
          | none =>
            if n2.bootstrapNode then
              ({ n2 with
                  transportStarted := true,
                  raftEngine := RaftEngine.started (some [n2.id]) }, none)
            else
              ({ n2 with
                  transportStarted := true,
                  raftEngine := RaftEngine.started none }, none)
      match afterEngine with
      | (n3, some e) => (n3, some e)
      | (n3, none) =>
        let n4 := { n3 with ticks := n3.ticks + (n3.raftConfig.ElectionTick - 1),
                            initialized := true, started := true }
        match if rejoinCluster then env.selfRejoinErr
              else if n4.bootstrapNode then none else env.addSelfErr with
        | some e => (n4, some e)
        | none => ({ n4 with running := true }, none)

/-- C10: `Start` on an already-started node returns nil immediately and
leaves the node (flags, engine, transport, peer map, everything modelled)
unchanged. -/
theorem Start_idempotent (env : StartEnv) (n : Node)
    (h : n.started = true) : Start env n = (n, none) := by
  simp [Start, h]

theorem Start_idempotent_witness :
    Start ⟨true, some "wal in use", none, none, none, none⟩
        { nonInitNode 9 ⟨0, 0, 7001, 8001, [], true, "/data", none, none⟩
            with started := true }
      = ({ nonInitNode 9 ⟨0, 0, 7001, 8001, [], true, "/data", none, none⟩
            with started := true }, none) :=
  Start_idempotent ⟨true, some "wal in use", none, none, none, none⟩
    { nonInitNode 9 ⟨0, 0, 7001, 8001, [], true, "/data", none, none⟩
        with started := true } rfl

end Canoe
